import Mathlib

set_option maxRecDepth 8000

/-
Verification of the stable-radar repository: the per-chain ingest engine
(src/app/api/hypersync/route.ts), the height-gated polling hook
(src/app/hooks/useHypersync.ts) and the radar presentation tick
(the delta-time Radar component, src/unnamed/part_004).

Transaction hashes are opaque strings in the source, used only for equality
tests; they are modelled as natural numbers.  Decoding of a raw log
(viem decodeEventLog) is an external collaborator; a raw log carries
`decoded = some (sender, recipient, value)` when decoding succeeds and
`none` when decodeEventLog throws.
-/

namespace StableRadar

/-- A JavaScript value sitting in the block-timestamp position of a query
item: either a number (seconds) or a string (hex-encoded). -/
inductive JsTimestamp where
  | num (n : Int)
  | str (s : String)
deriving DecidableEq, Repr

/-- JavaScript truthiness for a timestamp value: the number 0 and the empty
string are falsy, everything else is truthy. -/
def jsTruthy : JsTimestamp → Bool
  | JsTimestamp.num n => n != 0
  | JsTimestamp.str s => s != ""

/--
The timestamp stored on an emitted transaction, from route.ts lines 196-205:

  const timestamp = (item as any).blocks?.[0]?.timestamp || Date.now();
  ... timestamp: typeof timestamp === 'number' ? timestamp * 1000 : Date.now(),

`blockTs` is `blocks?.[0]?.timestamp` (none when the blocks array is absent
or empty); `nowMs` is the value of Date.now() during this call, in
milliseconds.
-/
def transferTimestamp (blockTs : Option JsTimestamp) (nowMs : Int) : Int :=
  let timestamp : JsTimestamp :=
    match blockTs with
    | some v => if jsTruthy v then v else JsTimestamp.num nowMs
    | none => JsTimestamp.num nowMs
  match timestamp with
  | JsTimestamp.num n => n * 1000
  | JsTimestamp.str _ => nowMs

/-- A raw log from a HyperSync query response.  `decoded` is the result of
the external decodeEventLog collaborator: `some (sender, recipient, value)`
on success, `none` when it throws. -/
structure RawLog where
  transaction_hash : Nat
  block_number : Nat
  decoded : Option (Nat × Nat × Nat)
deriving DecidableEq, Repr

/-- One item of the HyperSync response data array: its logs plus
`blocks?.[0]?.timestamp`. -/
structure QueryItem where
  logs : List RawLog
  blockTs : Option JsTimestamp
deriving DecidableEq, Repr

/-- A successful HyperSync query body.  `next_block = 0` and
`archive_height = 0` model an absent (falsy) field, exactly as JavaScript
truthiness collapses 0 and undefined. -/
structure HypersyncData where
  data : List QueryItem
  next_block : Nat
  archive_height : Nat
deriving DecidableEq, Repr

/-- A decoded transfer as pushed into the route's transactions array
(TransactionData).  The TypeScript fields `from` and `to` are named
`fromAddr` and `toAddr` here. -/
structure TransactionData where
  transactionHash : Nat
  blockNumber : Nat
  fromAddr : Nat
  toAddr : Nat
  value : Nat
  timestamp : Int
  chainId : Nat
deriving DecidableEq, Repr

/-- Build the TransactionData pushed for one successfully decoded log. -/
def mkTransaction (chainId : Nat) (nowMs : Int) (blockTs : Option JsTimestamp)
    (log : RawLog) (sender recipient value : Nat) : TransactionData :=
  { transactionHash := log.transaction_hash
    blockNumber := log.block_number
    fromAddr := sender
    toAddr := recipient
    value := value
    timestamp := transferTimestamp blockTs nowMs
    chainId := chainId }

/-- The transaction emitted for a raw log, when its decoding succeeds. -/
def emittedTx (chainId : Nat) (nowMs : Int) (blockTs : Option JsTimestamp)
    (log : RawLog) : Option TransactionData :=
  log.decoded.map (fun d => mkTransaction chainId nowMs blockTs log d.1 d.2.1 d.2.2)

/--
The inner loop of route.ts GET (lines 175-216) over the logs of one item.
The seen set (a JavaScript Set, iterated in insertion order) is modelled as
an insertion-ordered duplicate-free list.  A log already seen is skipped; a
log that fails to decode is skipped and in particular is not marked seen.
Returns the updated seen list and the emitted transactions, in order.
-/
def processLogs (chainId : Nat) (nowMs : Int) (blockTs : Option JsTimestamp) :
    List RawLog → List Nat → List Nat × List TransactionData
  | [], seen => (seen, [])
  | log :: rest, seen =>
    if log.transaction_hash ∈ seen then
      processLogs chainId nowMs blockTs rest seen
    else
      match log.decoded with
      | some d =>
        let res := processLogs chainId nowMs blockTs rest (seen ++ [log.transaction_hash])
        (res.1, mkTransaction chainId nowMs blockTs log d.1 d.2.1 d.2.2 :: res.2)
      | none => processLogs chainId nowMs blockTs rest seen

/-- The outer loop of route.ts GET over the items of the response data. -/
def processItems (chainId : Nat) (nowMs : Int) :
    List QueryItem → List Nat → List Nat × List TransactionData
  | [], seen => (seen, [])
  | item :: rest, seen =>
    let r1 := processLogs chainId nowMs item.blockTs item.logs seen
    let r2 := processItems chainId nowMs rest r1.1
    (r2.1, r1.2 ++ r2.2)

/-- cleanupSeenTransactions (route.ts lines 29-35): when the seen set holds
more than 10000 hashes, keep only the last 5000 in insertion order
(Array.from(seen).slice(-5000)). -/
def cleanupSeenTransactions (seen : List Nat) : List Nat :=
  if seen.length > 10000 then seen.drop (seen.length - 5000) else seen

/--
First-run fromBlock derivation (route.ts lines 60-101).  `lastSeenBlock` is
the stored cursor (0 when unset, as initialised); `heightOk` tells whether
the archive-height probe responded ok, `archiveHeight` its (truthy-checked)
archive_height field.  Math.max(0, archiveHeight - 10000) coincides with
truncated subtraction on naturals, and the final `if (!fromBlock) fromBlock
= 0` fallback is the 0 of the remaining branches.
-/
def deriveFromBlock (lastSeenBlock : Nat) (heightOk : Bool) (archiveHeight : Nat) : Nat :=
  if lastSeenBlock != 0 then lastSeenBlock
  else if heightOk && archiveHeight != 0 then archiveHeight - 10000
  else 0

/-- Per-chain server-side mutable state of route.ts: lastSeenBlocks[chainId]
and seenTransactions[chainId]. -/
structure ServerState where
  lastSeenBlock : Nat
  seen : List Nat
deriving DecidableEq, Repr

/-- Outcome of the main log query fetch: a non-ok response (which throws)
or a parsed ok body. -/
inductive QueryResult where
  | fail
  | ok (d : HypersyncData)
deriving DecidableEq, Repr

/-- The JSON body returned by a successful GET. -/
structure GetResponse where
  transactions : List TransactionData
  count : Nat
  totalTransactions : Nat
deriving DecidableEq, Repr

/--
One GET call of route.ts for a fixed chain, success path and failure path.

On a non-ok query response the handler throws before touching any state and
returns an error body (`none` here).  On success it first updates the
cursor from next_block (or, on a first run, archive_height), then processes
and deduplicates the logs, then — only when the 10% random roll
(`cleanupRoll`) hits — truncates the seen set.  The reported
`totalTransactions` is `seen.size` read through the local `seen` reference
captured before cleanup, so it is the pre-truncation size.
-/
def serverGET (chainId : Nat) (nowMs : Int) (result : QueryResult) (cleanupRoll : Bool)
    (s : ServerState) : ServerState × Option GetResponse :=
  match result with
  | QueryResult.fail => (s, none)
  | QueryResult.ok d =>
    let lastSeen :=
      if d.next_block != 0 then d.next_block
      else if d.archive_height != 0 && s.lastSeenBlock == 0 then d.archive_height
      else s.lastSeenBlock
    let pr := processItems chainId nowMs d.data s.seen
    let totalTransactions := pr.1.length
    let seenFinal := if cleanupRoll then cleanupSeenTransactions pr.1 else pr.1
    ({ lastSeenBlock := lastSeen, seen := seenFinal },
     some { transactions := pr.2, count := pr.2.length, totalTransactions := totalTransactions })

/-- Run a sequence of successful ingest cycles (data body plus cleanup
roll each) against the server state. -/
def ingestRun (chainId : Nat) (nowMs : Int) :
    List (HypersyncData × Bool) → ServerState → ServerState
  | [], s => s
  | c :: rest, s =>
    ingestRun chainId nowMs rest (serverGET chainId nowMs (QueryResult.ok c.1) c.2 s).1

/-- All transaction hashes appearing in one query body, in processing
order. -/
def bodyHashes (d : HypersyncData) : List Nat :=
  d.data.flatMap fun item => item.logs.map (·.transaction_hash)

/-- All transaction hashes appearing in a sequence of query bodies, in
processing order. -/
def callHashes (ds : List HypersyncData) : List Nat :=
  ds.flatMap bodyHashes

/-- Every log of every item of every body decodes successfully. -/
abbrev allDecodable (ds : List HypersyncData) : Prop :=
  ∀ d ∈ ds, ∀ item ∈ d.data, ∀ log ∈ item.logs, log.decoded.isSome

/-- Insert a hash into the insertion-ordered seen list unless present: the
effect of `seen.add` guarded by `seen.has`. -/
def insertIfNew (seen : List Nat) (h : Nat) : List Nat :=
  if h ∈ seen then seen else seen ++ [h]

/-! Client side: useHypersync.ts. -/

/-- Per-chain state held by the useHypersync hook (its ChainData). -/
structure ClientChainData where
  chainId : Nat
  transactions : List TransactionData
  totalCount : Nat
deriving DecidableEq, Repr

/-- MAX_TRANSACTIONS_PER_CHAIN (useHypersync.ts line 13). -/
def MAX_TRANSACTIONS_PER_CHAIN : Nat := 100

/-- JavaScript arr.slice(-n): the last n elements (the whole list when it
is shorter). -/
def jsSliceLast (n : Nat) (l : List TransactionData) : List TransactionData :=
  l.drop (l.length - n)

/-- The setChainData updater of fetchChainData (useHypersync.ts lines
84-102) on a successful response. -/
def updateClientData (chainId : Nat) (resp : GetResponse) (existing : ClientChainData) :
    ClientChainData :=
  let allTransactions := existing.transactions ++ resp.transactions
  let limitedTransactions := jsSliceLast MAX_TRANSACTIONS_PER_CHAIN allTransactions
  { transactions := limitedTransactions
    totalCount := resp.totalTransactions
    chainId := chainId }

/-- Consumer-visible outcome of one fetchChainData call: a chain-scoped
failure carrying the message that is formatted into setError, or a success
(which executes setError(null)). -/
inductive FetchEvent where
  | failure (chainId : Nat) (message : String)
  | success
deriving DecidableEq, Repr

/-- Effect of one fetchChainData outcome on the hook's single error state:
a failure overwrites it with the formatted chain-scoped string, a success
clears it. -/
def errorStep (_e : Option String) (ev : FetchEvent) : Option String :=
  match ev with
  | FetchEvent.failure chainId message =>
    some ("Chain " ++ toString chainId ++ ": " ++ message)
  | FetchEvent.success => none

/-- The error state after a sequence of fetch outcomes, starting from the
initial null. -/
def errorAfter (events : List FetchEvent) : Option String :=
  events.foldl errorStep none

/-- One pollChainHeight step (useHypersync.ts lines 112-128): given the
stored lastHeight and the height-check result (none on failure), return the
new lastHeight and whether a heavy fetch was triggered. -/
def pollStep (lastHeight : Nat) (height : Option Nat) : Nat × Bool :=
  match height with
  | none => (lastHeight, false)
  | some currentHeight =>
    if lastHeight == 0 || currentHeight > lastHeight then (currentHeight, true)
    else (lastHeight, false)

/-- The per-poll heavy-fetch flags produced by a sequence of height-check
results. -/
def pollFlags (lastHeight : Nat) : List (Option Nat) → List Bool
  | [] => []
  | h :: rest =>
    let st := pollStep lastHeight h
    st.2 :: pollFlags st.1 rest

/-!
Radar presentation engine: the delta-time Radar component
(src/unnamed/part_004).  The animation state is real-valued in the source;
angles, fade progress and elapsed time are modelled exactly over the
rationals, except for blip sizing which involves log10 and is modelled over
the reals below.  The constant 2π used to wrap the sweep is kept as an
explicit parameter `twoPi` of the discovery pass, since the source uses the
floating-point Math.PI * 2.
-/

/-- One blip (RadarTransaction in the source).  `size` stores the value
computed by calculateBlipSize; `value` is the raw USDC amount kept for the
tooltip. -/
structure RadarTransaction where
  angle : ℚ
  distance : ℚ
  timestamp : ℚ
  fadeProgress : ℚ
  hash : Nat
  size : ℚ
  discovered : Bool
  value : Nat
deriving DecidableEq, Repr

/-- The JavaScript remainder `x % m`, for the nonnegative operands produced
by the sweep (the sweep angle only ever accumulates upward from 0). -/
def jsMod (x m : ℚ) : ℚ :=
  x - m * ((Int.floor (x / m) : Int) : ℚ)

/-- visualRotationTime (part_004 line 73): the effective period, the
chain's block time clamped below at 2 seconds. -/
def visualRotationTime (blockTime : ℚ) : ℚ := max blockTime 2

/-- fadeSpeedPerSecond (part_004 line 78). -/
def fadeSpeedPerSecond (blockTime : ℚ) : ℚ := 1 / visualRotationTime blockTime

/--
The fade-and-removal step at the end of drawRadar (part_004 lines
383-392): every blip except the currently hovered one has its fade
progress advanced by fadeSpeedPerSecond * deltaTime, then every blip whose
fade progress is no longer below 1 is dropped.  `hoveredHash` is
hoveredBlip?.hash (`none` when nothing is hovered).
-/
def fadeAndRemove (blockTime deltaTime : ℚ) (hoveredHash : Option Nat)
    (txs : List RadarTransaction) : List RadarTransaction :=
  (txs.map fun tx =>
    { tx with fadeProgress :=
        if some tx.hash = hoveredHash then tx.fadeProgress
        else tx.fadeProgress + fadeSpeedPerSecond blockTime * deltaTime }).filter
    fun tx => tx.fadeProgress < 1

/-- The crossed test of drawRadar (part_004 lines 300-309), on angles
already reduced modulo 2π: the normal case when the sweep moved forward
without wrapping, and the wraparound case when it crossed 2π back to 0. -/
def crossedBySweep (previousSweepAngle currentSweepAngle blipAngle : ℚ) : Bool :=
  if currentSweepAngle ≥ previousSweepAngle then
    previousSweepAngle ≤ blipAngle && blipAngle ≤ currentSweepAngle
  else
    blipAngle ≥ previousSweepAngle || blipAngle ≤ currentSweepAngle

/-- The discovery pass of drawRadar (part_004 lines 289-314): reduce the
raw accumulated sweep angles modulo 2π, and flip `discovered` on every not
yet discovered blip whose angle the swept arc contains. -/
def discoveryPass (twoPi sweepAngle previousSweepAngleRaw : ℚ)
    (txs : List RadarTransaction) : List RadarTransaction :=
  let currentSweepAngle := jsMod sweepAngle twoPi
  let previousSweepAngle := jsMod previousSweepAngleRaw twoPi
  txs.map fun tx =>
    if !tx.discovered then
      if crossedBySweep previousSweepAngle currentSweepAngle tx.angle then
        { tx with discovered := true }
      else tx
    else tx

/--
calculateBlipSize (part_004 lines 82-102, identically in Radar.tsx): the
raw USDC amount (an arbitrary-precision decimal integer, 6 decimals) is
integer-divided by 1,000,000, log-scaled and clamped to [2, 15].  Math.log10
forces a real-valued model, hence the one noncomputable definition of this
development.
-/
noncomputable def calculateBlipSize (value : Nat) : ℝ :=
  let valueInUSDC : ℝ := ((value / 1000000 : Nat) : ℝ)
  let minSize : ℝ := 2
  let maxSize : ℝ := 15
  let logValue : ℝ := Real.logb 10 (max valueInUSDC 1)
  let size := minSize + logValue / 6 * (maxSize - minSize)
  min (max size minSize) maxSize

/-!
Concrete inputs used by the scenario and counterexample theorems below.
-/

/-- A raw log with the given hash that decodes successfully. -/
def mkSimpleLog (n : Nat) : RawLog :=
  { transaction_hash := n, block_number := n, decoded := some (0, 0, 0) }

/-- A query body carrying 10001 distinct decodable transfers. -/
def bigBatch : HypersyncData :=
  { data := [{ logs := (List.range 10001).map mkSimpleLog, blockTs := none }]
    next_block := 0
    archive_height := 0 }

/-- A follow-up query body carrying one fresh decodable transfer. -/
def extraBatch : HypersyncData :=
  { data := [{ logs := [mkSimpleLog 20000], blockTs := none }]
    next_block := 0
    archive_height := 0 }

/-- A query body carrying 150 distinct decodable transfers, for the
capacity-100 feed scenario. -/
def feedBatch150 : HypersyncData :=
  { data := [{ logs := (List.range 150).map mkSimpleLog, blockTs := none }]
    next_block := 0
    archive_height := 0 }

/-- The transactions emitted for feedBatch150, in order. -/
def feedTxs150 : List TransactionData :=
  ((List.range 150).map mkSimpleLog).filterMap (emittedTx 1 0 none)

/-- A rational stand-in for the floating-point Math.PI * 2 (355/113 is the
classical rational approximation of π); only its position relative to the
scenario angles 0.05, 0.1 and 6.2 matters. -/
def twoPiRat : ℚ := 2 * (355 / 113)

/-- An undiscovered blip sitting at 0.05 rad, for the wraparound
scenario. -/
def scenarioBlip : RadarTransaction :=
  { angle := 1/20, distance := 1/2, timestamp := 0, fadeProgress := 0
    hash := 7, size := 3, discovered := false, value := 0 }

/-!
Helper lemmas about the insertion-ordered seen set.
-/

theorem insertIfNew_length_le (seen : List Nat) (h : Nat) :
    seen.length ≤ (insertIfNew seen h).length := by
  unfold insertIfNew
  split <;> simp

theorem foldl_insertIfNew_length_le (hs : List Nat) (seen : List Nat) :
    seen.length ≤ (hs.foldl insertIfNew seen).length := by
  induction hs generalizing seen with
  | nil => exact Nat.le_refl _
  | cons h rest ih =>
    rw [List.foldl_cons]
    exact Nat.le_trans (insertIfNew_length_le seen h) (ih _)

theorem toFinset_insertIfNew (seen : List Nat) (h : Nat) :
    (insertIfNew seen h).toFinset = insert h seen.toFinset := by
  unfold insertIfNew
  split
  · next hm => rw [Finset.insert_eq_self.mpr (List.mem_toFinset.mpr hm)]
  · ext a
    simp [or_comm]

theorem toFinset_foldl_insertIfNew (hs : List Nat) (seen : List Nat) :
    (hs.foldl insertIfNew seen).toFinset = seen.toFinset ∪ hs.toFinset := by
  induction hs generalizing seen with
  | nil => simp
  | cons h rest ih =>
    rw [List.foldl_cons, ih, toFinset_insertIfNew, List.toFinset_cons]
    ext a
    simp only [Finset.mem_union, Finset.mem_insert]
    tauto

theorem nodup_insertIfNew (seen : List Nat) (h : Nat) (hn : seen.Nodup) :
    (insertIfNew seen h).Nodup := by
  unfold insertIfNew
  split
  · exact hn
  · next hm => simp [List.nodup_append, hn, hm]

theorem nodup_foldl_insertIfNew (hs : List Nat) (seen : List Nat) (hn : seen.Nodup) :
    (hs.foldl insertIfNew seen).Nodup := by
  induction hs generalizing seen with
  | nil => exact hn
  | cons h rest ih =>
    rw [List.foldl_cons]
    exact ih _ (nodup_insertIfNew seen h hn)

theorem length_foldl_insertIfNew (hs : List Nat) (seen : List Nat) (hn : seen.Nodup) :
    (hs.foldl insertIfNew seen).length = (seen.toFinset ∪ hs.toFinset).card := by
  rw [← toFinset_foldl_insertIfNew, List.card_toFinset,
    List.Nodup.dedup (nodup_foldl_insertIfNew hs seen hn)]

/-!
Characterisations of the processing loops.
-/

theorem processLogs_seen_eq_foldl (cid : Nat) (now : Int) (bts : Option JsTimestamp)
    (logs : List RawLog) (seen : List Nat)
    (hdec : ∀ log ∈ logs, log.decoded.isSome) :
    (processLogs cid now bts logs seen).1 =
      (logs.map (·.transaction_hash)).foldl insertIfNew seen := by
  induction logs generalizing seen with
  | nil => rfl
  | cons log rest ih =>
    have hhead : log.decoded.isSome := hdec log (List.mem_cons_self log rest)
    have htail : ∀ l ∈ rest, l.decoded.isSome := fun l hl =>
      hdec l (List.mem_cons_of_mem _ hl)
    obtain ⟨d, hd⟩ := Option.isSome_iff_exists.mp hhead
    rw [List.map_cons, List.foldl_cons]
    by_cases hm : log.transaction_hash ∈ seen
    · rw [show insertIfNew seen log.transaction_hash = seen from if_pos hm]
      simp only [processLogs, if_pos hm]
      exact ih seen htail
    · rw [show insertIfNew seen log.transaction_hash = seen ++ [log.transaction_hash] from
        if_neg hm]
      simp only [processLogs, if_neg hm, hd]
      exact ih _ htail

theorem processItems_seen_eq_foldl (cid : Nat) (now : Int)
    (items : List QueryItem) (seen : List Nat)
    (hdec : ∀ item ∈ items, ∀ log ∈ item.logs, log.decoded.isSome) :
    (processItems cid now items seen).1 =
      (items.flatMap fun it => it.logs.map (·.transaction_hash)).foldl insertIfNew seen := by
  induction items generalizing seen with
  | nil => rfl
  | cons item rest ih =>
    have hhead : ∀ log ∈ item.logs, log.decoded.isSome :=
      hdec item (List.mem_cons_self item rest)
    have htail : ∀ it ∈ rest, ∀ log ∈ it.logs, log.decoded.isSome := fun it hi =>
      hdec it (List.mem_cons_of_mem _ hi)
    rw [List.flatMap_cons, List.foldl_append]
    simp only [processItems]
    rw [ih _ htail, processLogs_seen_eq_foldl cid now item.blockTs item.logs seen hhead]

theorem processLogs_fresh (cid : Nat) (now : Int) (bts : Option JsTimestamp)
    (logs : List RawLog) (seen : List Nat)
    (hnd : (logs.map (·.transaction_hash)).Nodup)
    (hdisj : ∀ log ∈ logs, log.transaction_hash ∉ seen) :
    processLogs cid now bts logs seen =
      (seen ++ ((logs.filter fun l => l.decoded.isSome).map (·.transaction_hash)),
       logs.filterMap (emittedTx cid now bts)) := by
  induction logs generalizing seen with
  | nil => simp [processLogs]
  | cons log rest ih =>
    have hm : log.transaction_hash ∉ seen := hdisj log (List.mem_cons_self log rest)
    rw [List.map_cons, List.nodup_cons] at hnd
    have hfresh : log.transaction_hash ∉ rest.map (·.transaction_hash) := hnd.1
    have hdisj_tail : ∀ l ∈ rest, l.transaction_hash ∉ seen := fun l hl =>
      hdisj l (List.mem_cons_of_mem _ hl)
    cases hd : log.decoded with
    | none =>
      simp only [processLogs, if_neg hm, hd]
      rw [ih seen hnd.2 hdisj_tail]
      simp [List.filter_cons, hd, emittedTx, List.filterMap_cons]
    | some d =>
      have hdisj2 : ∀ l ∈ rest, l.transaction_hash ∉ seen ++ [log.transaction_hash] := by
        intro l hl
        rw [List.mem_append]
        rintro (hin | hin)
        · exact hdisj_tail l hl hin
        · rw [List.mem_singleton] at hin
          exact hfresh (hin ▸ List.mem_map_of_mem (·.transaction_hash) hl)
      simp only [processLogs, if_neg hm, hd]
      rw [ih (seen ++ [log.transaction_hash]) hnd.2 hdisj2]
      simp [List.filter_cons, hd, emittedTx, List.filterMap_cons, mkTransaction]

theorem processLogs_fresh_allDec (cid : Nat) (now : Int) (bts : Option JsTimestamp)
    (logs : List RawLog) (seen : List Nat)
    (hnd : (logs.map (·.transaction_hash)).Nodup)
    (hdisj : ∀ log ∈ logs, log.transaction_hash ∉ seen)
    (hdec : ∀ log ∈ logs, log.decoded.isSome) :
    processLogs cid now bts logs seen =
      (seen ++ logs.map (·.transaction_hash), logs.filterMap (emittedTx cid now bts)) := by
  rw [processLogs_fresh cid now bts logs seen hnd hdisj,
    List.filter_eq_self.mpr hdec]

theorem callHashes_cons (d : HypersyncData) (ds : List HypersyncData) :
    callHashes (d :: ds) = bodyHashes d ++ callHashes ds := by
  simp [callHashes]

theorem callHashes_append (ds es : List HypersyncData) :
    callHashes (ds ++ es) = callHashes ds ++ callHashes es := by
  simp [callHashes]

theorem bodyHashes_singleItem (logs : List RawLog) (bts : Option JsTimestamp)
    (nb ah : Nat) :
    bodyHashes ⟨[⟨logs, bts⟩], nb, ah⟩ = logs.map (·.transaction_hash) := by
  simp [bodyHashes]

theorem serverGET_ok_seen (cid : Nat) (now : Int) (d : HypersyncData) (roll : Bool)
    (s : ServerState)
    (hdec : ∀ item ∈ d.data, ∀ log ∈ item.logs, log.decoded.isSome)
    (hlen : ((bodyHashes d).foldl insertIfNew s.seen).length ≤ 10000) :
    (serverGET cid now (QueryResult.ok d) roll s).1.seen =
      (bodyHashes d).foldl insertIfNew s.seen := by
  have hp := processItems_seen_eq_foldl cid now d.data s.seen hdec
  simp only [serverGET]
  cases roll with
  | false => exact hp
  | true =>
    rw [if_pos rfl]
    unfold cleanupSeenTransactions
    rw [hp]
    rw [if_neg (by unfold bodyHashes at hlen; omega)]
    rfl

theorem ingestRun_seen (cid : Nat) (now : Int) (calls : List (HypersyncData × Bool))
    (s : ServerState) (hdec : allDecodable (calls.map Prod.fst))
    (hb : ((callHashes (calls.map Prod.fst)).foldl insertIfNew s.seen).length ≤ 10000) :
    (ingestRun cid now calls s).seen =
      (callHashes (calls.map Prod.fst)).foldl insertIfNew s.seen := by
  induction calls generalizing s with
  | nil => rfl
  | cons c rest ih =>
    have hdec_c : ∀ item ∈ c.1.data, ∀ log ∈ item.logs, log.decoded.isSome :=
      hdec c.1 (by simp)
    have hdec_rest : allDecodable (rest.map Prod.fst) := fun x hx =>
      hdec x (by rw [List.map_cons]; exact List.mem_cons_of_mem _ hx)
    rw [List.map_cons, callHashes_cons, List.foldl_append] at hb ⊢
    have hlen_c : ((bodyHashes c.1).foldl insertIfNew s.seen).length ≤ 10000 :=
      Nat.le_trans (foldl_insertIfNew_length_le _ _) hb
    have hstep := serverGET_ok_seen cid now c.1 c.2 s hdec_c hlen_c
    show (ingestRun cid now rest _).seen = _
    rw [ih _ hdec_rest (by rw [hstep]; exact hb), hstep]

theorem rangeLogs_hashes (n : Nat) :
    ((List.range n).map mkSimpleLog).map (·.transaction_hash) = List.range n := by
  rw [List.map_map]
  exact List.map_id _

theorem rangeLogs_decodable (n : Nat) :
    ∀ log ∈ (List.range n).map mkSimpleLog, log.decoded.isSome := by
  intro log hl
  obtain ⟨k, _, hk⟩ := List.mem_map.mp hl
  rw [← hk]
  rfl

theorem processLogs_rangeLogs (n : Nat) :
    processLogs 1 0 none ((List.range n).map mkSimpleLog) [] =
      (List.range n, ((List.range n).map mkSimpleLog).filterMap (emittedTx 1 0 none)) := by
  rw [processLogs_fresh_allDec 1 0 none _ [] (by rw [rangeLogs_hashes]; exact List.nodup_range n)
    (by simp) (rangeLogs_decodable n)]
  rw [rangeLogs_hashes, List.nil_append]

theorem serverGET_ok_total (cid : Nat) (now : Int) (d : HypersyncData) (roll : Bool)
    (s : ServerState) :
    (serverGET cid now (QueryResult.ok d) roll s).2.map (·.totalTransactions) =
      some ((processItems cid now d.data s.seen).1.length) := rfl

theorem serverGET_ok_seen_noroll (cid : Nat) (now : Int) (d : HypersyncData)
    (s : ServerState) :
    (serverGET cid now (QueryResult.ok d) false s).1.seen =
      (processItems cid now d.data s.seen).1 := rfl

theorem serverGET_ok_seen_roll (cid : Nat) (now : Int) (d : HypersyncData)
    (s : ServerState) :
    (serverGET cid now (QueryResult.ok d) true s).1.seen =
      cleanupSeenTransactions (processItems cid now d.data s.seen).1 := rfl

theorem processItems_single_seen (cid : Nat) (now : Int) (logs : List RawLog)
    (bts : Option JsTimestamp) (seen : List Nat) :
    (processItems cid now [{ logs := logs, blockTs := bts }] seen).1 =
      (processLogs cid now bts logs seen).1 := rfl

theorem processItems_bigBatch_seen :
    (processItems 1 0 bigBatch.data []).1 = List.range 10001 := by
  rw [show bigBatch.data
      = [{ logs := (List.range 10001).map mkSimpleLog, blockTs := none }] from rfl]
  rw [processItems_single_seen, processLogs_rangeLogs]

theorem serverGET_ok_resp (cid : Nat) (now : Int) (d : HypersyncData) (roll : Bool)
    (s : ServerState) :
    (serverGET cid now (QueryResult.ok d) roll s).2 =
      some { transactions := (processItems cid now d.data s.seen).2
             count := (processItems cid now d.data s.seen).2.length
             totalTransactions := (processItems cid now d.data s.seen).1.length } := rfl

theorem cleanupSeenTransactions_length_le (seen : List Nat) :
    (cleanupSeenTransactions seen).length ≤ 10000 := by
  unfold cleanupSeenTransactions
  split
  · next h => rw [List.length_drop]; omega
  · next h => omega

/-!
Claim theorems.
-/

/-- Claim C3: when the log query for a chain returns a non-success
response, the GET handler throws before mutating any state, so the chain's
cursor (lastSeenBlocks) and its seen set are left exactly as they were, and
a retry derives exactly the same fromBlock from the unchanged cursor. -/
theorem queryFailure_cursor_unchanged (chainId : Nat) (nowMs : Int) (cleanupRoll : Bool)
    (heightOk : Bool) (archiveHeight : Nat) (s : ServerState) :
    (serverGET chainId nowMs QueryResult.fail cleanupRoll s).1 = s ∧
    deriveFromBlock (serverGET chainId nowMs QueryResult.fail cleanupRoll s).1.lastSeenBlock
        heightOk archiveHeight =
      deriveFromBlock s.lastSeenBlock heightOk archiveHeight :=
  ⟨rfl, rfl⟩

/-- Claim C4 (counterexample): from fresh per-chain state, the height
sequence [100, 100, 100, 101] triggers two heavy queries, not exactly one:
the very first successful poll (stored lastHeight still 0) already triggers
a fetch, in addition to the 100 → 101 transition. -/
theorem height_sequence_not_one_query :
    (pollFlags 0 [some 100, some 100, some 100, some 101]).count true = 2 ∧
    (pollFlags 0 [some 100, some 100, some 100, some 101]).count true ≠ 1 := by
  decide

/-- Claim C4 (amended): from fresh per-chain state, the height sequence
[100, 100, 100, 101] triggers exactly two heavy queries — one on the first
successful poll and one on the 100 → 101 transition — and none on the two
unchanged-height polls. -/
theorem height_sequence_two_queries :
    pollFlags 0 [some 100, some 100, some 100, some 101] = [true, false, false, true] := by
  decide

/-- Claim C7 (counterexample): on the first fetch with archive height
20000, the code derives fromBlock 10000, not 20000 - 10 = 19990: the safety
margin is 10000 blocks, not 10. -/
theorem firstFetch_margin_counterexample :
    deriveFromBlock 0 true 20000 = 10000 ∧ deriveFromBlock 0 true 20000 ≠ 20000 - 10 := by
  decide

/-- Claim C7 (amended): on the first fetch for a chain (cursor unset), when
the height probe succeeds with a nonzero archive height, fromBlock is the
archive height minus a safety margin of 10000 blocks (clamped at zero,
never scanning from genesis); when the probe fails, the explicit zero
fallback applies. -/
theorem firstFetch_fromBlock (archiveHeight : Nat) (h : archiveHeight ≠ 0) :
    deriveFromBlock 0 true archiveHeight = archiveHeight - 10000 ∧
    deriveFromBlock 0 false archiveHeight = 0 := by
  unfold deriveFromBlock
  simp [h]

theorem firstFetch_fromBlock_witness :
    deriveFromBlock 0 true 20000 = 20000 - 10000 ∧ deriveFromBlock 0 false 20000 = 0 :=
  firstFetch_fromBlock 20000 (by decide)

/-- Claim C9 (code bug): when a batch item carries no block timestamp, the
fallback Date.now() (already in milliseconds) flows through the numeric
branch and is multiplied by 1000 again, so the emitted timestamp is 1000
times the current wall-clock time instead of the current time in
milliseconds, contradicting the code's own comments promising a fallback to
the current time converted to milliseconds. -/
theorem missing_timestamp_bug :
    transferTimestamp none 1700000000000 = 1700000000000 * 1000 ∧
    transferTimestamp none 1700000000000 ≠ 1700000000000 := by
  exact ⟨rfl, by decide⟩

/-- Claim C10: the hook's consumer-visible error state after any history of
fetch outcomes followed by one more outcome depends only on that last
outcome: a new chain-scoped failure overwrites whatever was stored (and a
success clears it), so the channel holds at most the single most recent
error and never accumulates. -/
theorem error_channel_most_recent (events : List FetchEvent) (ev : FetchEvent) :
    errorAfter (events ++ [ev]) = errorAfter [ev] := by
  unfold errorAfter
  rw [List.foldl_append]
  cases ev <;> rfl

/-- Claim C2 (amended): the client recentTransfers list never exceeds its
capacity of 100 after any update, and the seen set holds at most 10000
hashes after any ingest cycle in which the probabilistic cleanup ran; a
cycle whose 10% cleanup roll misses can leave the seen set above 10000 (see
the counterexample). -/
theorem bounded_memory_amended (chainId cid : Nat) (nowMs : Int) (d : HypersyncData)
    (s : ServerState) (resp : GetResponse) (existing : ClientChainData) :
    (updateClientData chainId resp existing).transactions.length ≤ 100 ∧
    (serverGET cid nowMs (QueryResult.ok d) true s).1.seen.length ≤ 10000 := by
  constructor
  · simp only [updateClientData, jsSliceLast, MAX_TRANSACTIONS_PER_CHAIN, List.length_drop]
    omega
  · exact cleanupSeenTransactions_length_le _

/-- Claim C2 (counterexample): one ingest cycle delivering 10001 distinct
decodable transfers whose 10%-probability cleanup roll misses leaves the
seen set at 10001 entries, above the 10000 ceiling. -/
theorem seenSet_ceiling_counterexample :
    (serverGET 1 0 (QueryResult.ok bigBatch) false ⟨0, []⟩).1.seen.length = 10001 ∧
    ¬((serverGET 1 0 (QueryResult.ok bigBatch) false ⟨0, []⟩).1.seen.length ≤ 10000) := by
  have hseen : (serverGET 1 0 (QueryResult.ok bigBatch) false ⟨0, []⟩).1.seen
      = List.range 10001 := by
    rw [serverGET_ok_seen_noroll,
      show (ServerState.mk 0 ([] : List Nat)).seen = [] from rfl,
      processItems_bigBatch_seen]
  rw [hseen, List.length_range]
  omega

/-- Claim C1 (counterexample): after a cycle ingesting 10001 distinct
transfers whose cleanup roll hits (truncating the seen set to its most
recent 5000 entries), a further cycle ingesting one fresh transfer reports
totalTransactions = 5001, while the number of distinct transaction ids
across the two results is 10002. -/
theorem totalObserved_truncation_counterexample :
    ((serverGET 1 0 (QueryResult.ok extraBatch) false
        (serverGET 1 0 (QueryResult.ok bigBatch) true ⟨0, []⟩).1).2.map
      (·.totalTransactions)) = some 5001 ∧
    (callHashes [bigBatch, extraBatch]).toFinset.card = 10002 ∧
    (5001 : Nat) ≠ 10002 := by
  have h1 : (serverGET 1 0 (QueryResult.ok bigBatch) true ⟨0, []⟩).1.seen
      = (List.range 10001).drop 5001 := by
    rw [serverGET_ok_seen_roll,
      show (ServerState.mk 0 ([] : List Nat)).seen = [] from rfl,
      processItems_bigBatch_seen]
    unfold cleanupSeenTransactions
    rw [if_pos (by rw [List.length_range]; omega), List.length_range]
  have h20000 : (20000 : Nat) ∉ (List.range 10001).drop 5001 := by
    intro hmem
    have := List.mem_range.mp (List.mem_of_mem_drop hmem)
    omega
  have h2 : (processLogs 1 0 none [mkSimpleLog 20000] ((List.range 10001).drop 5001)).1
      = (List.range 10001).drop 5001 ++ [20000] := by
    rw [processLogs_fresh_allDec 1 0 none _ _ (by simp)
      (by intro log hl; rw [List.mem_singleton] at hl; rw [hl]; exact h20000)
      (by intro log hl; rw [List.mem_singleton] at hl; rw [hl]; rfl)]
    simp [mkSimpleLog]
  refine ⟨?_, ?_, by decide⟩
  · rw [serverGET_ok_total, h1,
      show extraBatch.data = [{ logs := [mkSimpleLog 20000], blockTs := none }] from rfl,
      processItems_single_seen, h2, List.length_append, List.length_drop, List.length_range]
    rfl
  · have hch : callHashes [bigBatch, extraBatch] = List.range 10001 ++ [20000] := by
      rw [callHashes_cons, callHashes_cons,
        show callHashes ([] : List HypersyncData) = [] from rfl,
        List.append_nil]
      rw [show bigBatch
          = (⟨[⟨(List.range 10001).map mkSimpleLog, none⟩], 0, 0⟩ : HypersyncData) from rfl,
        bodyHashes_singleItem, rangeLogs_hashes]
      rw [show extraBatch
          = (⟨[⟨[mkSimpleLog 20000], none⟩], 0, 0⟩ : HypersyncData) from rfl,
        bodyHashes_singleItem]
      rfl
    have hnd : (List.range 10001 ++ [20000]).Nodup := by
      refine List.Nodup.append (List.nodup_range 10001) (List.nodup_singleton _) ?_
      intro a ha hb
      rw [List.mem_singleton] at hb
      subst hb
      exact absurd (List.mem_range.mp ha) (by omega)
    rw [hch, List.card_toFinset, List.Nodup.dedup hnd, List.length_append, List.length_range]
    rfl

theorem processItems_feedBatch150 :
    processItems 1 0 feedBatch150.data [] = (List.range 150, feedTxs150) := by
  rw [show feedBatch150.data
      = [{ logs := (List.range 150).map mkSimpleLog, blockTs := none }] from rfl]
  have hsingle : processItems 1 0
      [{ logs := (List.range 150).map mkSimpleLog, blockTs := none }] [] =
      ((processLogs 1 0 none ((List.range 150).map mkSimpleLog) []).1,
       (processLogs 1 0 none ((List.range 150).map mkSimpleLog) []).2 ++ []) := rfl
  rw [hsingle, processLogs_rangeLogs, List.append_nil]
  rfl

/--
Claim C1 (amended): as long as the number of distinct transaction ids stays
within the 10000 seen-set ceiling (so that no truncation can occur), the
reported totalTransactions after any sequence of successful ingest cycles
of decodable logs — with arbitrary cleanup rolls and arbitrary overlap
between cycles — equals the number of distinct transaction ids across all
results processed so far; in particular injecting 150 distinct transfers
into the capacity-100 feed reports totalObservedCount 150 while the client
keeps exactly the 100 most recent transfers.
-/
theorem totalObserved_eq_distinct (cid : Nat) (now : Int)
    (calls : List (HypersyncData × Bool)) (d : HypersyncData) (roll : Bool)
    (hdec : allDecodable (calls.map Prod.fst ++ [d]))
    (hbound : (callHashes (calls.map Prod.fst ++ [d])).toFinset.card ≤ 10000) :
    ((serverGET cid now (QueryResult.ok d) roll (ingestRun cid now calls ⟨0, []⟩)).2.map
        (·.totalTransactions)) =
      some ((callHashes (calls.map Prod.fst ++ [d])).toFinset.card) ∧
    (serverGET 1 0 (QueryResult.ok feedBatch150) false ⟨0, []⟩).2.map (·.totalTransactions)
      = some 150 ∧
    ((serverGET 1 0 (QueryResult.ok feedBatch150) false ⟨0, []⟩).2.map
        fun r => (updateClientData 1 r ⟨1, [], 0⟩).transactions)
      = some (feedTxs150.drop 50) ∧
    feedTxs150.length = 150 := by
  have hseenState : (ServerState.mk 0 ([] : List Nat)).seen = [] := rfl
  have hfull_eq :
      ((callHashes (calls.map Prod.fst ++ [d])).foldl insertIfNew ([] : List Nat)).length
        = (callHashes (calls.map Prod.fst ++ [d])).toFinset.card := by
    rw [length_foldl_insertIfNew _ _ List.nodup_nil]
    simp
  have hb_full :
      ((callHashes (calls.map Prod.fst ++ [d])).foldl insertIfNew ([] : List Nat)).length
        ≤ 10000 := by
    rw [hfull_eq]; exact hbound
  have hdec_calls : allDecodable (calls.map Prod.fst) := fun x hx =>
    hdec x (List.mem_append_left _ hx)
  have hdec_d : ∀ item ∈ d.data, ∀ log ∈ item.logs, log.decoded.isSome :=
    hdec d (List.mem_append_right _ (List.mem_singleton_self d))
  rw [callHashes_append, List.foldl_append] at hb_full
  have hb_prefix :
      ((callHashes (calls.map Prod.fst)).foldl insertIfNew ([] : List Nat)).length ≤ 10000 :=
    Nat.le_trans (foldl_insertIfNew_length_le _ _) hb_full
  have hseen := ingestRun_seen cid now calls ⟨0, []⟩ hdec_calls
    (by rw [hseenState]; exact hb_prefix)
  rw [hseenState] at hseen
  have hlen150 : feedTxs150.length = 150 := by decide
  have hcount150 : (serverGET 1 0 (QueryResult.ok feedBatch150) false ⟨0, []⟩).2.map
      (·.totalTransactions) = some 150 := by
    rw [serverGET_ok_total, hseenState, processItems_feedBatch150,
      show ((List.range 150, feedTxs150) : List Nat × List TransactionData).1
        = List.range 150 from rfl,
      List.length_range]
  refine ⟨?_, hcount150, ?_, hlen150⟩
  · rw [serverGET_ok_total, processItems_seen_eq_foldl cid now d.data _ hdec_d, hseen,
      ← List.foldl_append]
    have hcat : callHashes (calls.map Prod.fst)
        ++ (d.data.flatMap fun it => it.logs.map (·.transaction_hash))
        = callHashes (calls.map Prod.fst ++ [d]) := by
      rw [callHashes_append, callHashes_cons,
        show callHashes ([] : List HypersyncData) = [] from rfl, List.append_nil]
      rfl
    rw [hcat, hfull_eq]
  · have htx : (serverGET 1 0 (QueryResult.ok feedBatch150) false ⟨0, []⟩).2.map
        (fun r => (updateClientData 1 r ⟨1, [], 0⟩).transactions)
        = some (jsSliceLast MAX_TRANSACTIONS_PER_CHAIN ([] ++ feedTxs150)) := by
      rw [serverGET_ok_resp, hseenState, processItems_feedBatch150]
      rfl
    rw [htx, List.nil_append]
    unfold jsSliceLast MAX_TRANSACTIONS_PER_CHAIN
    rw [hlen150]

theorem totalObserved_eq_distinct_witness :
    ((serverGET 1 0 (QueryResult.ok feedBatch150) false
        (ingestRun 1 0 [] ⟨0, []⟩)).2.map (·.totalTransactions)) =
      some ((callHashes (([] : List (HypersyncData × Bool)).map Prod.fst
        ++ [feedBatch150])).toFinset.card) ∧
    (serverGET 1 0 (QueryResult.ok feedBatch150) false ⟨0, []⟩).2.map (·.totalTransactions)
      = some 150 ∧
    ((serverGET 1 0 (QueryResult.ok feedBatch150) false ⟨0, []⟩).2.map
        fun r => (updateClientData 1 r ⟨1, [], 0⟩).transactions)
      = some (feedTxs150.drop 50) ∧
    feedTxs150.length = 150 :=
  totalObserved_eq_distinct 1 0 [] feedBatch150 false (by decide) (by decide)

/-- Claim C5: on every animation tick of the delta-time radar, every blip
except the currently hovered one has its fade progress advanced by exactly
deltaTime / max(blockTime, 2) — elapsed seconds over the effective period —
the hovered blip is held at its current fade value, and afterwards exactly
the blips whose fade progress is no longer below 1 are silently dropped. -/
theorem fade_rule (blockTime deltaTime : ℚ) (hoveredHash : Option Nat)
    (txs : List RadarTransaction) :
    fadeAndRemove blockTime deltaTime hoveredHash txs =
      (txs.map fun tx =>
        { tx with fadeProgress :=
            if some tx.hash = hoveredHash then tx.fadeProgress
            else tx.fadeProgress + deltaTime / max blockTime 2 }).filter
        fun tx => tx.fadeProgress < 1 := by
  unfold fadeAndRemove fadeSpeedPerSecond visualRotationTime
  simp only [one_div_mul_eq_div]

/-- Claim C6: after a discovery pass, each blip's discovered flag equals its
prior value OR the swept-arc test between the previous and current sweep
angles (both reduced modulo 2π, with the wraparound case handled) applied
to the blip's angle — so a flag once true is never reset — and a sweep
advancing from 6.2 rad to 0.1 rad discovers a blip sitting at 0.05 rad. -/
theorem discovery_rule (twoPi sweepAngle previousSweepAngleRaw : ℚ)
    (txs : List RadarTransaction) :
    discoveryPass twoPi sweepAngle previousSweepAngleRaw txs =
      (txs.map fun tx =>
        { tx with discovered := tx.discovered ||
            (crossedBySweep (jsMod previousSweepAngleRaw twoPi) (jsMod sweepAngle twoPi)
              tx.angle) }) ∧
    (discoveryPass twoPiRat (1/10) (62/10) [scenarioBlip]).map (·.discovered) = [true] := by
  constructor
  · unfold discoveryPass
    refine List.map_congr_left ?_
    intro tx _
    obtain ⟨a, di, ts, fp, h, sz, dv, vl⟩ := tx
    by_cases hd : dv
    · simp [hd]
    · by_cases hc : crossedBySweep (jsMod previousSweepAngleRaw twoPi)
        (jsMod sweepAngle twoPi) a
      · simp [hd, hc]
      · simp [hd, hc]
  · have hf1 : Int.floor ((1/10 : ℚ) / twoPiRat) = 0 := by
      unfold twoPiRat
      rw [Int.floor_eq_zero_iff]
      constructor <;> norm_num
    have hf2 : Int.floor ((62/10 : ℚ) / twoPiRat) = 0 := by
      unfold twoPiRat
      rw [Int.floor_eq_zero_iff]
      constructor <;> norm_num
    have hm1 : jsMod (1/10 : ℚ) twoPiRat = 1/10 := by
      unfold jsMod
      rw [hf1]
      norm_num
    have hm2 : jsMod (62/10 : ℚ) twoPiRat = 62/10 := by
      unfold jsMod
      rw [hf2]
      norm_num
    simp only [discoveryPass]
    rw [hm1, hm2]
    norm_num [crossedBySweep, scenarioBlip]

/-- Claim C8: blip size is monotone in the raw amount and always lies in
the fixed range [2, 15]. -/
theorem blipSize_monotone_bounded (a1 a2 : Nat) (h : a1 < a2) :
    calculateBlipSize a1 ≤ calculateBlipSize a2 ∧
    (2 ≤ calculateBlipSize a1 ∧ calculateBlipSize a1 ≤ 15) ∧
    (2 ≤ calculateBlipSize a2 ∧ calculateBlipSize a2 ≤ 15) := by
  have hbound : ∀ a : Nat, 2 ≤ calculateBlipSize a ∧ calculateBlipSize a ≤ 15 := by
    intro a
    unfold calculateBlipSize
    exact ⟨le_min (le_max_right _ _) (by norm_num), min_le_right _ _⟩
  refine ⟨?_, hbound a1, hbound a2⟩
  unfold calculateBlipSize
  have hdiv : ((a1 / 1000000 : Nat) : ℝ) ≤ ((a2 / 1000000 : Nat) : ℝ) := by
    exact_mod_cast Nat.div_le_div_right (Nat.le_of_lt h)
  have hmax : max ((a1 / 1000000 : Nat) : ℝ) 1 ≤ max ((a2 / 1000000 : Nat) : ℝ) 1 :=
    max_le_max hdiv le_rfl
  have hpos : (0 : ℝ) < max ((a1 / 1000000 : Nat) : ℝ) 1 :=
    lt_of_lt_of_le one_pos (le_max_right _ _)
  have hlog : Real.logb 10 (max ((a1 / 1000000 : Nat) : ℝ) 1)
      ≤ Real.logb 10 (max ((a2 / 1000000 : Nat) : ℝ) 1) :=
    Real.logb_le_logb_of_le (by norm_num) hpos hmax
  have hsize : (2 : ℝ) + Real.logb 10 (max ((a1 / 1000000 : Nat) : ℝ) 1) / 6 * (15 - 2)
      ≤ 2 + Real.logb 10 (max ((a2 / 1000000 : Nat) : ℝ) 1) / 6 * (15 - 2) := by
    linarith
  exact min_le_min (max_le_max hsize le_rfl) le_rfl

theorem blipSize_monotone_bounded_witness :
    calculateBlipSize 100 ≤ calculateBlipSize 200 ∧
    (2 ≤ calculateBlipSize 100 ∧ calculateBlipSize 100 ≤ 15) ∧
    (2 ≤ calculateBlipSize 200 ∧ calculateBlipSize 200 ≤ 15) :=
  blipSize_monotone_bounded 100 200 (by decide)

end StableRadar
